import Mathlib

/-!
Shallow embedding of the dog-breed matchmaker core (src/app.py and
src/trait_engine.py): the breed scorer `score_breeds`, the chat parser
`parse_chat_message_to_preferences`, the merge step from `main`, and the
keyword extractors of `trait_engine.parse_preferences`.

Python dicts (str keys) are modelled as association lists with first-match
lookup; floats are modelled as rationals (all constants in the source are
exact decimals); a missing / NaN trait cell is `Option.none`.
-/

/-- Python `d.get(k)` on an association list: value at the first matching key. -/
def dget (m : List (String × ℚ)) (k : String) : Option ℚ :=
  match m with
  | [] => none
  | p :: rest => if p.1 = k then some p.2 else dget rest k

/-- Python `d[k] = v`: replace the value at an existing key in place, else append. -/
def dset (m : List (String × ℚ)) (k : String) (v : ℚ) : List (String × ℚ) :=
  match m with
  | [] => [(k, v)]
  | p :: rest => if p.1 = k then (k, v) :: rest else p :: dset rest k v

/-- One row of the breed-trait table: `Breed` name plus the numeric trait cells
that are present (a missing column or NaN cell is simply absent). -/
structure BreedRow where
  name : String
  traits : List (String × ℚ)
  deriving DecidableEq

/-- The fixed pretty-name -> column-name table `PREFERENCE_TRAITS` of app.py. -/
def PREFERENCE_TRAITS : List (String × String) :=
  [("Energy Level", "Energy Level"),
   ("Good With Young Children", "Good With Young Children"),
   ("Shedding Level", "Shedding Level"),
   ("Barking Level", "Barking Level"),
   ("Trainability Level", "Trainability Level"),
   ("Affectionate With Family", "Affectionate With Family")]

/-- The expression `match = max(0.0, 1.0 - diff / 4.0)` from `score_breeds`. -/
def matchVal (diff : ℚ) : ℚ := max 0 (1 - diff / 4)

/-- The `diff` used per trait: `2.5` neutral penalty when the cell is missing, else
`abs(trait_value - desired)`. -/
def diffVal (desired : ℚ) (tv : Option ℚ) : ℚ :=
  match tv with
  | none => 5 / 2
  | some a => |a - desired|

/-- Per-trait detail record stored in the `details` dict of `score_breeds`
(`matchv` models the `match` key). -/
structure TraitDetail where
  desired : ℚ
  actual : Option ℚ
  matchv : ℚ
  weight : ℚ
  deriving DecidableEq

/-- One iteration of the inner loop of `score_breeds` for a
(pretty_name, col_name) pair: `none` models `continue` when the trait is not
in `prefs`; otherwise the weighted contribution and the details entry. -/
def traitEval (prefs weights : List (String × ℚ)) (row : BreedRow)
    (pc : String × String) : Option (ℚ × (String × TraitDetail)) :=
  match dget prefs pc.1 with
  | none => none
  | some desired =>
    let weight := (dget weights pc.1).getD 0
    let tv := dget row.traits pc.2
    let m := matchVal (diffVal desired tv)
    some (m * weight,
      (pc.1, { desired := desired, actual := tv, matchv := m, weight := weight }))

/-- The inner loop of `score_breeds` over `PREFERENCE_TRAITS.items()`:
accumulated `breed_score` and the `details` entries in insertion order. -/
def rowEval (prefs weights : List (String × ℚ)) (row : BreedRow) :
    ℚ × List (String × TraitDetail) :=
  let items := PREFERENCE_TRAITS.filterMap (traitEval prefs weights row)
  ((items.map (fun x => x.1)).sum, items.map (fun x => x.2))

/-- Models `total_weight = sum(weights.values()) or 1.0` (Python `or`: a zero sum is
falsy and is replaced by `1.0`). -/
def totalWeight (weights : List (String × ℚ)) : ℚ :=
  let s := (weights.map (fun p => p.2)).sum
  if s = 0 then 1 else s

/-- One output row of `score_breeds`: the retained columns
`[Breed, score, details]`. -/
structure ScoredRow where
  breed : String
  score : ℚ
  details : List (String × TraitDetail)
  deriving DecidableEq

/-- The scored frame before sorting: one `ScoredRow` per catalog row, with
`score_pct = (breed_score / total_weight) * 100.0`. -/
def scoredRows (catalog : List BreedRow) (prefs weights : List (String × ℚ)) :
    List ScoredRow :=
  catalog.map (fun row =>
    let ev := rowEval prefs weights row
    { breed := row.name, score := ev.1 / totalWeight weights * 100, details := ev.2 })

/-- Comparison used by `sort_values("score", ascending=False)`: descending
score order. -/
def scoreGE (a b : ScoredRow) : Prop := b.score ≤ a.score

instance : DecidableRel scoreGE :=
  fun a b => inferInstanceAs (Decidable (b.score ≤ a.score))

instance : IsTotal ScoredRow scoreGE := ⟨fun a b => le_total b.score a.score⟩

instance : IsTrans ScoredRow scoreGE := ⟨fun _ _ _ h1 h2 => le_trans h2 h1⟩

/-- Model of `score_breeds`: score every catalog row and sort descending by score.
The pandas sort is modelled as an insertion sort on the score key alone (the
source supplies no secondary key; for the frames considered here the numpy
introsort degenerates to the same stable insertion sort). -/
def scoreBreeds (catalog : List BreedRow) (prefs weights : List (String × ℚ)) :
    List ScoredRow :=
  List.insertionSort scoreGE (scoredRows catalog prefs weights)

/-- The apostrophe character, kept out of string literals. -/
def apoS : String := String.mk [Char.ofNat 39]

/-- Lowercasing `message.lower()` as a character list. -/
def lowerChars (s : String) : List Char := s.toList.map Char.toLower

/-- Python substring test `needle in hay`. -/
def containsSub (hay needle : List Char) : Bool :=
  match hay with
  | [] => needle.isEmpty
  | _ :: rest => needle.isPrefixOf hay || containsSub rest needle

/-- The test `k in text` for a keyword given as a string. -/
def hasKw (t : List Char) (k : String) : Bool := containsSub t k.toList

/-- Python `any(k in text for k in ks)`. -/
def anyKw (t : List Char) (ks : List String) : Bool := ks.any (fun k => hasKw t k)

/-- Model of `parse_chat_message_to_preferences` of app.py: the keyword rule chain,
building the `prefs` dict in insertion order. -/
def parseChat (message : String) : List (String × ℚ) :=
  let text := lowerChars message
  let p0 : List (String × ℚ) := []
  let p1 :=
    if anyKw text ["high energy", "very active", "run", "jogging"] then
      dset p0 ("Energy Level") 5
    else if anyKw text ["medium energy", "moderate energy"] then
      dset p0 ("Energy Level") 3
    else if anyKw text ["low energy", "couch", "chill", "apartment"] then
      dset p0 ("Energy Level") 2
    else p0
  let p2 :=
    if anyKw text ["kids", "children", "family"] then
      dset p1 ("Good With Young Children") 5
    else p1
  let p3 :=
    if hasKw text ("no kids") || hasKw text ("no children") then
      dset p2 ("Good With Young Children") 2
    else p2
  let p4 :=
    if hasKw text ("hypoallergenic") || hasKw text ("allergy") then
      dset p3 ("Shedding Level") 1
    else if hasKw text ("okay with shedding") || hasKw text ("don" ++ apoS ++ "t mind fur") then
      dset p3 ("Shedding Level") 4
    else p3
  let p5 :=
    if anyKw text ["quiet", "noise sensitive", "noisy neighbors"] then
      dset p4 ("Barking Level") 2
    else p4
  let p6 :=
    if hasKw text ("guard dog") || hasKw text ("watchdog") then
      dset p5 ("Watchdog/Protective Nature") 5
    else p5
  let p7 :=
    if anyKw text ["first dog", "easy to train", "beginner"] then
      dset p6 ("Trainability Level") 5
    else p6
  p7

/-- Python `d.update(u)`: fold `d[k] = v` over the entries of `u`. -/
def dictUpdate (d u : List (String × ℚ)) : List (String × ℚ) :=
  u.foldl (fun acc p => dset acc p.1 p.2) d

/-- The merge step of `main` (app.py, chatbot tab): chat-inferred preferences
override the sidebar ones, and for every trait mentioned in chat the weight is
boosted to `max(combined_weights.get(trait, 0.6), 1.0)`. -/
def mergeChat (prefs_sidebar weights_sidebar inferred_prefs : List (String × ℚ)) :
    List (String × ℚ) × List (String × ℚ) :=
  let combined_prefs := dictUpdate prefs_sidebar inferred_prefs
  let combined_weights :=
    (inferred_prefs.map (fun p => p.1)).foldl
      (fun w trait => dset w trait (max ((dget w trait).getD (3 / 5)) 1)) weights_sidebar
  (combined_prefs, combined_weights)

/-- Model of `_extract_energy` of trait_engine.py. -/
def extract_energy (text : String) : Option ℚ :=
  let t := lowerChars text
  if anyKw t ["low energy", "very low", "calm", "chill", "relaxed", "quiet dog",
      "quiet and calm", "not very active", "doesn" ++ apoS ++ "t make too much noise",
      "doesnt make too much noise", "not make too much noise", "couch potato"] then
    some 1
  else if hasKw t ("low") && !hasKw t ("low shedding") && !hasKw t ("low-shedding") then
    some 1
  else if anyKw t ["medium energy", "moderate energy", "in the middle",
      "not too active", "balanced energy"] then
    some 3
  else if anyKw t ["high energy", "very active", "hyper", "energetic", "sporty",
      "runner"] then
    some 5
  else if hasKw t ("high") then
    some 5
  else none

/-- Model of `_extract_home` of trait_engine.py. -/
def extract_home (text : String) : Option ℚ :=
  let t := lowerChars text
  if anyKw t ["studio", "small apartment", "tiny apartment", "condo"] then
    some 1
  else if hasKw t ("apartment") || hasKw t ("flat") then
    some 2
  else if anyKw t ["yard", "garden", "big house", "house with a yard", "suburbs"] then
    some 5
  else if hasKw t ("house") || hasKw t ("home") then
    some 4
  else none

/-- Model of `_extract_allergies` of trait_engine.py. -/
def extract_allergies (text : String) : Option ℚ :=
  let t := lowerChars text
  if hasKw t ("hypoallergenic") then
    some 1
  else if hasKw t ("allergy") || hasKw t ("allergies") || hasKw t ("asthma") then
    some 2
  else if anyKw t ["low-shedding", "low shedding", "little shedding", "minimal shedding",
      "hardly sheds", "barely sheds",
      "doesn" ++ apoS ++ "t shed much", "doesnt shed much",
      "doesn" ++ apoS ++ "t shed too much", "doesnt shed too much",
      "doesn" ++ apoS ++ "t shed much hair", "doesnt shed much hair",
      "doesn" ++ apoS ++ "t shed too much hair", "doesnt shed too much hair",
      "not shed much hair", "not shed too much hair",
      "don" ++ apoS ++ "t shed much hair", "dont shed much hair",
      "don" ++ apoS ++ "t shed too much hair", "dont shed too much hair",
      "shed much hair", "shed too much hair", "shed much fur", "shed too much fur"] then
    some 2
  else if hasKw t ("i don" ++ apoS ++ "t mind shedding") || hasKw t ("shedding is fine") then
    some 4
  else none

/-- Model of `_extract_kids` of trait_engine.py. -/
def extract_kids (text : String) : Option ℚ :=
  let t := lowerChars text
  if !anyKw t ["kid", "kids", "child", "children", "baby", "toddler", "family"] then
    none
  else if anyKw t ["yes", "important", "must", "should", "need", "absolutely",
      "be good with"] then
    some 5
  else if anyKw t ["no", "not important", "doesn" ++ apoS ++ "t matter",
      "don" ++ apoS ++ "t care"] then
    some 1
  else some 5

/-- Model of `parse_preferences` of trait_engine.py: assemble the extracted traits. -/
def parse_preferences (text : String) : List (String × ℚ) :=
  let p0 : List (String × ℚ) := []
  let p1 := match extract_energy text with
    | none => p0
    | some e => dset p0 ("energy") e
  let p2 := match extract_home text with
    | none => p1
    | some h => dset p1 ("home") h
  let p3 := match extract_allergies text with
    | none => p2
    | some a => dset p2 ("allergies") a
  let p4 := match extract_kids text with
    | none => p3
    | some k => dset p3 ("kids") k
  p4

/-! ### Helper lemmas about dict lookup and the per-trait arithmetic -/

lemma dget_dset_self (m : List (String × ℚ)) (k : String) (v : ℚ) :
    dget (dset m k v) k = some v := by
  induction m with
  | nil => simp [dset, dget]
  | cons p rest ih =>
    by_cases h : p.1 = k
    · simp [dset, dget, h]
    · simp [dset, dget, h, ih]

lemma dget_dset_other (m : List (String × ℚ)) (k q : String) (v : ℚ) (hq : q ≠ k) :
    dget (dset m k v) q = dget m q := by
  induction m with
  | nil => simp [dset, dget, Ne.symm hq]
  | cons p rest ih =>
    by_cases h : p.1 = k
    · simp [dset, dget, h, Ne.symm hq, hq]
    · by_cases h2 : p.1 = q <;> simp [dset, dget, h, h2, ih, hq]

lemma dget_mem_values (m : List (String × ℚ)) (k : String) (v : ℚ)
    (h : dget m k = some v) : v ∈ m.map (fun p => p.2) := by
  induction m with
  | nil => simp [dget] at h
  | cons p rest ih =>
    by_cases hp : p.1 = k
    · simp [dget, hp] at h
      simp [h]
    · simp [dget, hp] at h
      simp [ih h]

lemma dget_getD_nonneg (m : List (String × ℚ)) (k : String)
    (hm : ∀ p ∈ m, 0 ≤ p.2) : 0 ≤ (dget m k).getD 0 := by
  cases h : dget m k with
  | none => simp
  | some v =>
    have hv := dget_mem_values m k v h
    simp only [List.mem_map] at hv
    obtain ⟨p, hp, hpv⟩ := hv
    simpa [hpv] using hm p hp

lemma dget_getD_eq_zero (m : List (String × ℚ)) (k : String)
    (hm : ∀ p ∈ m, 0 ≤ p.2) (hz : (m.map (fun p => p.2)).sum = 0) :
    (dget m k).getD 0 = 0 := by
  cases h : dget m k with
  | none => simp
  | some v =>
    have hv := dget_mem_values m k v h
    have hall : ∀ x ∈ m.map (fun p => p.2), (0:ℚ) ≤ x := by
      intro x hx
      simp only [List.mem_map] at hx
      obtain ⟨p, hp, hpx⟩ := hx
      simpa [hpx] using hm p hp
    have := le_antisymm (hz ▸ List.single_le_sum hall v hv) (hall v hv)
    simpa using this

lemma matchVal_nonneg (d : ℚ) : 0 ≤ matchVal d := le_max_left 0 _

lemma matchVal_le_one (d : ℚ) (hd : 0 ≤ d) : matchVal d ≤ 1 := by
  unfold matchVal
  have h1 : (1:ℚ) - d / 4 ≤ 1 := by
    have : 0 ≤ d / 4 := by positivity
    linarith
  exact max_le (by norm_num) h1

lemma diffVal_nonneg (desired : ℚ) (tv : Option ℚ) : 0 ≤ diffVal desired tv := by
  cases tv with
  | none => norm_num [diffVal]
  | some a =>
    show 0 ≤ |a - desired|
    exact abs_nonneg (a - desired)

lemma matchVal_eq_one_iff (d : ℚ) (hd : 0 ≤ d) : matchVal d = 1 ↔ d = 0 := by
  unfold matchVal
  constructor
  · intro h
    rcases max_eq_iff.1 h with ⟨h1, _⟩ | ⟨h1, _⟩
    · exact absurd h1.symm (by norm_num)
    · linarith
  · intro h
    subst h
    norm_num

/-! ### Bounds on the accumulated breed score -/

lemma traitEval_contrib_bounds (prefs weights : List (String × ℚ)) (row : BreedRow)
    (pc : String × String) (hw : ∀ p ∈ weights, 0 ≤ p.2)
    (x : ℚ × (String × TraitDetail)) (hx : traitEval prefs weights row pc = some x) :
    0 ≤ x.1 ∧ x.1 ≤ (dget weights pc.1).getD 0 := by
  unfold traitEval at hx
  cases hd : dget prefs pc.1 with
  | none => rw [hd] at hx; exact absurd hx (by simp)
  | some d =>
    rw [hd] at hx
    simp only [Option.some.injEq] at hx
    subst hx
    have hwn : 0 ≤ (dget weights pc.1).getD 0 := dget_getD_nonneg _ _ hw
    have hm0 : 0 ≤ matchVal (diffVal d (dget row.traits pc.2)) := matchVal_nonneg _
    have hm1 : matchVal (diffVal d (dget row.traits pc.2)) ≤ 1 :=
      matchVal_le_one _ (diffVal_nonneg _ _)
    constructor
    · exact mul_nonneg hm0 hwn
    · calc matchVal (diffVal d (dget row.traits pc.2)) * (dget weights pc.1).getD 0
          ≤ 1 * (dget weights pc.1).getD 0 := mul_le_mul_of_nonneg_right hm1 hwn
        _ = (dget weights pc.1).getD 0 := one_mul _

lemma evalSum_bounds (prefs weights : List (String × ℚ)) (row : BreedRow)
    (hw : ∀ p ∈ weights, 0 ≤ p.2) (L : List (String × String)) :
    0 ≤ ((L.filterMap (traitEval prefs weights row)).map (fun x => x.1)).sum ∧
    ((L.filterMap (traitEval prefs weights row)).map (fun x => x.1)).sum
      ≤ (L.map (fun pc => (dget weights pc.1).getD 0)).sum := by
  induction L with
  | nil => simp
  | cons pc L ih =>
    have hwn : 0 ≤ (dget weights pc.1).getD 0 := dget_getD_nonneg _ _ hw
    cases h : traitEval prefs weights row pc with
    | none =>
      refine ⟨by simpa [List.filterMap_cons, h] using ih.1, ?_⟩
      simp only [List.filterMap_cons, h, List.map_cons, List.sum_cons]
      linarith [ih.2]
    | some x =>
      obtain ⟨hx0, hx1⟩ := traitEval_contrib_bounds prefs weights row pc hw x h
      simp only [List.filterMap_cons, h, List.map_cons, List.sum_cons]
      exact ⟨by linarith [ih.1], by linarith [ih.2]⟩

lemma sum_dget_le (weights : List (String × ℚ)) (hw : ∀ p ∈ weights, 0 ≤ p.2) :
    ∀ L : List String, L.Nodup →
      (L.map (fun t => (dget weights t).getD 0)).sum ≤ (weights.map (fun p => p.2)).sum := by
  induction weights with
  | nil =>
    intro L _
    have : (L.map (fun t => (dget ([] : List (String × ℚ)) t).getD 0)) = L.map (fun _ => (0:ℚ)) := by
      simp [dget]
    simp [this]
  | cons p rest ih =>
    intro L hL
    have hp0 : 0 ≤ p.2 := hw p (by simp)
    have hrest : ∀ q ∈ rest, 0 ≤ q.2 := fun q hq => hw q (by simp [hq])
    by_cases hmem : p.1 ∈ L
    · have hperm : List.Perm L (p.1 :: L.erase p.1) := List.perm_cons_erase hmem
      have hsum : (L.map (fun t => (dget (p :: rest) t).getD 0)).sum
          = ((p.1 :: L.erase p.1).map (fun t => (dget (p :: rest) t).getD 0)).sum :=
        List.Perm.sum_eq (List.Perm.map _ hperm)
      have herase : ∀ t ∈ L.erase p.1, (dget (p :: rest) t).getD 0 = (dget rest t).getD 0 := by
        intro t htmem
        have htne : t ≠ p.1 := by
          intro hcontra
          exact (List.Nodup.not_mem_erase hL) (hcontra ▸ htmem)
        simp [dget, Ne.symm htne]
      have hmap : (L.erase p.1).map (fun t => (dget (p :: rest) t).getD 0)
          = (L.erase p.1).map (fun t => (dget rest t).getD 0) := List.map_congr_left herase
      have hhd : (dget (p :: rest) p.1).getD 0 = p.2 := by simp [dget]
      have hrec := ih hrest (L.erase p.1) (List.Nodup.erase _ hL)
      rw [hsum]
      simp only [List.map_cons, List.sum_cons, hhd, hmap, List.map_cons, List.sum_cons]
      linarith
    · have hall : ∀ t ∈ L, (dget (p :: rest) t).getD 0 = (dget rest t).getD 0 := by
        intro t htmem
        have htne : t ≠ p.1 := fun hcontra => hmem (hcontra ▸ htmem)
        simp [dget, Ne.symm htne]
      have hmap : L.map (fun t => (dget (p :: rest) t).getD 0)
          = L.map (fun t => (dget rest t).getD 0) := List.map_congr_left hall
      have hrec := ih hrest L hL
      rw [hmap]
      simp only [List.map_cons, List.sum_cons]
      linarith

lemma rowEval_bounds (prefs weights : List (String × ℚ)) (row : BreedRow)
    (hw : ∀ p ∈ weights, 0 ≤ p.2) :
    0 ≤ (rowEval prefs weights row).1 ∧
    (rowEval prefs weights row).1 ≤ (weights.map (fun p => p.2)).sum := by
  have hb := evalSum_bounds prefs weights row hw PREFERENCE_TRAITS
  refine ⟨hb.1, le_trans hb.2 ?_⟩
  have hmm : (PREFERENCE_TRAITS.map (fun pc => (dget weights pc.1).getD 0)).sum
      = ((PREFERENCE_TRAITS.map (fun pc => pc.1)).map (fun t => (dget weights t).getD 0)).sum := by
    rw [List.map_map]
    rfl
  rw [hmm]
  exact sum_dget_le weights hw (PREFERENCE_TRAITS.map (fun pc => pc.1)) (by decide)

lemma score_pct_bounds (prefs weights : List (String × ℚ)) (row : BreedRow)
    (hw : ∀ p ∈ weights, 0 ≤ p.2) :
    0 ≤ (rowEval prefs weights row).1 / totalWeight weights * 100 ∧
    (rowEval prefs weights row).1 / totalWeight weights * 100 ≤ 100 := by
  obtain ⟨h0, h1⟩ := rowEval_bounds prefs weights row hw
  have hsn : 0 ≤ (weights.map (fun p => p.2)).sum := by
    apply List.sum_nonneg
    intro x hx
    simp only [List.mem_map] at hx
    obtain ⟨p, hp, hpx⟩ := hx
    simpa [hpx] using hw p hp
  by_cases hs : (weights.map (fun p => p.2)).sum = 0
  · have hb0 : (rowEval prefs weights row).1 = 0 := le_antisymm (hs ▸ h1) h0
    simp [totalWeight, hs, hb0]
  · have hpos : 0 < (weights.map (fun p => p.2)).sum := lt_of_le_of_ne hsn (Ne.symm hs)
    have htw : totalWeight weights = (weights.map (fun p => p.2)).sum := by
      simp [totalWeight, hs]
    rw [htw]
    constructor
    · positivity
    · have hdiv : (rowEval prefs weights row).1 / (weights.map (fun p => p.2)).sum ≤ 1 :=
        (div_le_one hpos).2 h1
      nlinarith

/-! ### Claim theorems -/

/-- C1: for a preferred trait with desired level d and present breed value a,
both in [1,5], the per-trait match computed by the scorer equals
max(0, 1 - |d - a| / 4), lies in [0,1], and equals 1 iff d = a. -/
theorem score_match_formula (prefs weights : List (String × ℚ)) (row : BreedRow)
    (t c : String) (d a : ℚ)
    (hd : dget prefs t = some d) (ha : dget row.traits c = some a)
    (hd1 : 1 ≤ d) (hd5 : d ≤ 5) (ha1 : 1 ≤ a) (ha5 : a ≤ 5) :
    traitEval prefs weights row (t, c) =
      some (matchVal |a - d| * (dget weights t).getD 0,
        (t, { desired := d, actual := some a, matchv := matchVal |a - d|,
              weight := (dget weights t).getD 0 })) ∧
    matchVal |a - d| = max 0 (1 - |a - d| / 4) ∧
    0 ≤ matchVal |a - d| ∧ matchVal |a - d| ≤ 1 ∧
    (matchVal |a - d| = 1 ↔ d = a) := by
  refine ⟨?_, rfl, matchVal_nonneg _, matchVal_le_one _ (abs_nonneg _), ?_⟩
  · simp [traitEval, hd, ha, diffVal]
  · rw [matchVal_eq_one_iff _ (abs_nonneg _), abs_eq_zero, sub_eq_zero, eq_comm]

/-- Closed instance of C1 at desired 3, actual 4. -/
theorem score_match_formula_witness :
    traitEval [("Energy Level", 3)] [] { name := "Beagle", traits := [("Energy Level", 4)] }
        ("Energy Level", "Energy Level") =
      some (matchVal |(4:ℚ) - 3| * (dget [] ("Energy Level")).getD 0,
        ("Energy Level",
          { desired := 3, actual := some 4, matchv := matchVal |(4:ℚ) - 3|,
            weight := (dget [] ("Energy Level")).getD 0 })) ∧
    matchVal |(4:ℚ) - 3| = max 0 (1 - |(4:ℚ) - 3| / 4) ∧
    0 ≤ matchVal |(4:ℚ) - 3| ∧ matchVal |(4:ℚ) - 3| ≤ 1 ∧
    (matchVal |(4:ℚ) - 3| = 1 ↔ (3:ℚ) = 4) :=
  score_match_formula [("Energy Level", 3)] []
    { name := "Beagle", traits := [("Energy Level", 4)] }
    ("Energy Level") ("Energy Level") 3 4 (by simp [dget]) (by simp [dget])
    (by norm_num) (by norm_num) (by norm_num) (by norm_num)

/-- C2: when the weight values sum to zero (as for an empty profile), the
total weight is replaced by 1.0, no division by zero occurs, and every breed
in the catalog gets score 0. -/
theorem score_zero_total_weight (catalog : List BreedRow) (prefs weights : List (String × ℚ))
    (hw : ∀ p ∈ weights, 0 ≤ p.2) (hz : (weights.map (fun p => p.2)).sum = 0) :
    totalWeight weights = 1 ∧ ∀ r ∈ scoreBreeds catalog prefs weights, r.score = 0 := by
  refine ⟨by simp [totalWeight, hz], ?_⟩
  intro r hr
  rw [scoreBreeds] at hr
  have hr2 := (List.perm_insertionSort scoreGE (scoredRows catalog prefs weights)).mem_iff.1 hr
  rw [scoredRows, List.mem_map] at hr2
  obtain ⟨row, hrow, heq⟩ := hr2
  have hb := rowEval_bounds prefs weights row hw
  have hb0 : (rowEval prefs weights row).1 = 0 := le_antisymm (hz ▸ hb.2) hb.1
  rw [← heq]
  simp [hb0, totalWeight, hz]

/-- Closed instance of C2: empty weight map, one-breed catalog. -/
theorem score_zero_total_weight_witness :
    totalWeight [] = 1 ∧
    ∀ r ∈ scoreBreeds [{ name := "Beagle", traits := [("Energy Level", 4)] }]
        [("Energy Level", 3)] [], r.score = 0 :=
  score_zero_total_weight [{ name := "Beagle", traits := [("Energy Level", 4)] }]
    [("Energy Level", 3)] [] (by simp) (by simp)

/-- C3: for any catalog and any profile whose weights all lie in [0,1], every
aggregate score produced by the scorer lies in [0, 100]. -/
theorem score_within_0_100 (catalog : List BreedRow) (prefs weights : List (String × ℚ))
    (hw : ∀ p ∈ weights, 0 ≤ p.2 ∧ p.2 ≤ 1) :
    ∀ r ∈ scoreBreeds catalog prefs weights, 0 ≤ r.score ∧ r.score ≤ 100 := by
  intro r hr
  rw [scoreBreeds] at hr
  have hr2 := (List.perm_insertionSort scoreGE (scoredRows catalog prefs weights)).mem_iff.1 hr
  rw [scoredRows, List.mem_map] at hr2
  obtain ⟨row, hrow, heq⟩ := hr2
  have hb := score_pct_bounds prefs weights row (fun p hp => (hw p hp).1)
  rw [← heq]
  exact hb

/-- Closed instance of C3 at a small catalog and profile. -/
theorem score_within_0_100_witness :
    0 ≤ ({ breed := "Beagle", score := 75,
           details := [("Energy Level",
             { desired := 3, actual := some 4, matchv := 3 / 4, weight := 1 })] } : ScoredRow).score ∧
    ({ breed := "Beagle", score := 75,
       details := [("Energy Level",
         { desired := 3, actual := some 4, matchv := 3 / 4, weight := 1 })] } : ScoredRow).score ≤ 100 :=
  score_within_0_100 [{ name := "Beagle", traits := [("Energy Level", 4)] }]
    [("Energy Level", 3)] [("Energy Level", 1)]
    (by intro p hp; simp at hp; simp [hp])
    { breed := "Beagle", score := 75,
      details := [("Energy Level",
        { desired := 3, actual := some 4, matchv := 3 / 4, weight := 1 })] }
    (by norm_num +decide [scoreBreeds, scoredRows, rowEval, PREFERENCE_TRAITS,
      List.filterMap_cons, traitEval, dget, totalWeight, diffVal, matchVal, scoreGE])

/-- C4: when the breed has no value for a preferred trait, the scorer uses the
fixed penalty diff = 2.5, so the match fraction of that trait is exactly 0.375. -/
theorem score_missing_data_penalty (prefs weights : List (String × ℚ)) (row : BreedRow)
    (t c : String) (d : ℚ) (hd : dget prefs t = some d) (ha : dget row.traits c = none) :
    diffVal d (dget row.traits c) = 5 / 2 ∧
    matchVal (5 / 2) = 3 / 8 ∧
    traitEval prefs weights row (t, c) =
      some (3 / 8 * (dget weights t).getD 0,
        (t, { desired := d, actual := none, matchv := 3 / 8,
              weight := (dget weights t).getD 0 })) := by
  have hm : matchVal ((5:ℚ) / 2) = 3 / 8 := by
    have h38 : (1 : ℚ) - 5 / 2 / 4 = 3 / 8 := by norm_num
    rw [matchVal, h38, max_eq_right (by norm_num : (0:ℚ) ≤ 3 / 8)]
  refine ⟨by simp [ha, diffVal], hm, ?_⟩
  simp [traitEval, hd, ha, diffVal, hm]

/-- Closed instance of C4: a breed with no data for the preferred trait. -/
theorem score_missing_data_penalty_witness :
    diffVal 3 (dget ({ name := "Komondor", traits := [] } : BreedRow).traits ("Energy Level")) = 5 / 2 ∧
    matchVal (5 / 2) = 3 / 8 ∧
    traitEval [("Energy Level", 3)] [] { name := "Komondor", traits := [] }
        ("Energy Level", "Energy Level") =
      some (3 / 8 * (dget [] ("Energy Level")).getD 0,
        ("Energy Level",
          { desired := 3, actual := none, matchv := 3 / 8,
            weight := (dget [] ("Energy Level")).getD 0 })) :=
  score_missing_data_penalty [("Energy Level", 3)] [] { name := "Komondor", traits := [] }
    ("Energy Level") ("Energy Level") 3 (by simp [dget]) (by simp [dget])

/-- C5 (amended): the scorer output is sorted in descending order of score and
is a permutation of the scored catalog rows; being a pure function of its
inputs, repeated calls on identical input give the identical ordering. -/
theorem score_sorted_descending (catalog : List BreedRow) (prefs weights : List (String × ℚ)) :
    List.Sorted scoreGE (scoreBreeds catalog prefs weights) ∧
    List.Perm (scoreBreeds catalog prefs weights) (scoredRows catalog prefs weights) ∧
    scoreBreeds catalog prefs weights = scoreBreeds catalog prefs weights :=
  ⟨List.sorted_insertionSort scoreGE (scoredRows catalog prefs weights),
   List.perm_insertionSort scoreGE (scoredRows catalog prefs weights), rfl⟩

/-- C5 counterexample: two breeds with tied scores are returned in catalog
order, not alphabetically ("Zebra Hound" stays ahead of "Apple Terrier"). -/
theorem score_tiebreak_not_alphabetical_cex :
    (scoreBreeds [{ name := "Zebra Hound", traits := [] },
        { name := "Apple Terrier", traits := [] }] [] []).map (fun r => r.breed)
      = ["Zebra Hound", "Apple Terrier"] ∧
    (scoreBreeds [{ name := "Zebra Hound", traits := [] },
        { name := "Apple Terrier", traits := [] }] [] []).map (fun r => r.score)
      = [0, 0] ∧
    ["Zebra Hound", "Apple Terrier"] ≠ ["Apple Terrier", "Zebra Hound"] := by
  refine ⟨?_, ?_, by decide⟩ <;>
    norm_num [scoreBreeds, scoredRows, rowEval, PREFERENCE_TRAITS, traitEval, dget,
      totalWeight, scoreGE]

/-- The Example-1 utterance of the spec (the apostrophe spliced in). -/
def exUtterance : String :=
  "I live in an apartment and have two young kids, and I" ++ apoS ++ "m allergic to dog hair"

/-- C6 counterexample: on the Example-1 utterance the chat parser does NOT set
Shedding Level (the rule matches "allergy", not "allergic") and DOES set
Energy Level = 2 (the keyword "apartment" is in the low-energy list). -/
theorem parse_example1_cex :
    dget (parseChat exUtterance) ("Shedding Level") = none ∧
    dget (parseChat exUtterance) ("Energy Level") = some 2 ∧
    parseChat exUtterance = [("Energy Level", 2), ("Good With Young Children", 5)] := by
  refine ⟨?_, ?_, ?_⟩ <;> decide

/-- C6 (amended): on the Example-1 utterance the extracted delta is
Energy Level = 2 and Good With Young Children = 5, each merged with weight 1.0
by the chat weight boost; Shedding Level is not extracted. -/
theorem parse_example1_amended :
    parseChat exUtterance = [("Energy Level", 2), ("Good With Young Children", 5)] ∧
    mergeChat [] [] (parseChat exUtterance)
      = ([("Energy Level", 2), ("Good With Young Children", 5)],
         [("Energy Level", 1), ("Good With Young Children", 1)]) := by
  have h : parseChat exUtterance = [("Energy Level", 2), ("Good With Young Children", 5)] := by
    decide
  refine ⟨h, ?_⟩
  rw [h]
  norm_num +decide [mergeChat, dictUpdate, dset, dget, max_eq_right]

/-- All keywords recognized by the app.py chat parser. -/
def appChatKws : List String :=
  ["high energy", "very active", "run", "jogging",
   "medium energy", "moderate energy",
   "low energy", "couch", "chill", "apartment",
   "kids", "children", "family",
   "no kids", "no children",
   "hypoallergenic", "allergy",
   "okay with shedding", "don" ++ apoS ++ "t mind fur",
   "quiet", "noise sensitive", "noisy neighbors",
   "guard dog", "watchdog",
   "first dog", "easy to train", "beginner"]

/-- All keywords recognized by the trait_engine energy extractor. -/
def engEnergyKws : List String :=
  ["low energy", "very low", "calm", "chill", "relaxed", "quiet dog", "quiet and calm",
   "not very active", "doesn" ++ apoS ++ "t make too much noise", "doesnt make too much noise",
   "not make too much noise", "couch potato", "low",
   "medium energy", "moderate energy", "in the middle", "not too active", "balanced energy",
   "high energy", "very active", "hyper", "energetic", "sporty", "runner", "high"]

/-- All keywords recognized by the trait_engine home extractor. -/
def engHomeKws : List String :=
  ["studio", "small apartment", "tiny apartment", "condo", "apartment", "flat",
   "yard", "garden", "big house", "house with a yard", "suburbs", "house", "home"]

/-- All keywords recognized by the trait_engine allergies extractor. -/
def engAllergyKws : List String :=
  ["hypoallergenic", "allergy", "allergies", "asthma",
   "low-shedding", "low shedding", "little shedding", "minimal shedding",
   "hardly sheds", "barely sheds",
   "doesn" ++ apoS ++ "t shed much", "doesnt shed much",
   "doesn" ++ apoS ++ "t shed too much", "doesnt shed too much",
   "doesn" ++ apoS ++ "t shed much hair", "doesnt shed much hair",
   "doesn" ++ apoS ++ "t shed too much hair", "doesnt shed too much hair",
   "not shed much hair", "not shed too much hair",
   "don" ++ apoS ++ "t shed much hair", "dont shed much hair",
   "don" ++ apoS ++ "t shed too much hair", "dont shed too much hair",
   "shed much hair", "shed too much hair", "shed much fur", "shed too much fur",
   "i don" ++ apoS ++ "t mind shedding", "shedding is fine"]

/-- The gating keywords of the trait_engine kids extractor. -/
def engKidsKws : List String :=
  ["kid", "kids", "child", "children", "baby", "toddler", "family"]

/-- Every keyword whose absence makes both extractors produce no signal. -/
def noSignalKws : List String :=
  appChatKws ++ (engEnergyKws ++ engHomeKws ++ engAllergyKws ++ engKidsKws)

lemma parseChat_no_kw (s : String)
    (h : ∀ k ∈ appChatKws, hasKw (lowerChars s) k = false) :
    parseChat s = [] := by
  simp only [appChatKws, List.forall_mem_cons, List.forall_mem_nil, and_true] at h
  obtain ⟨h1, h2, h3, h4, h5, h6, h7, h8, h9, h10, h11, h12, h13, h14, h15, h16, h17, h18,
    h19, h20, h21, h22, h23, h24, h25, h26, h27⟩ := h
  simp [parseChat, anyKw, h1, h2, h3, h4, h5, h6, h7, h8, h9, h10, h11, h12, h13, h14,
    h15, h16, h17, h18, h19, h20, h21, h22, h23, h24, h25, h26, h27]

lemma extract_energy_no_kw (s : String)
    (h : ∀ k ∈ engEnergyKws, hasKw (lowerChars s) k = false) :
    extract_energy s = none := by
  simp only [engEnergyKws, List.forall_mem_cons, List.forall_mem_nil, and_true] at h
  obtain ⟨h1, h2, h3, h4, h5, h6, h7, h8, h9, h10, h11, h12, h13, h14, h15, h16, h17, h18,
    h19, h20, h21, h22, h23, h24, h25⟩ := h
  simp [extract_energy, anyKw, h1, h2, h3, h4, h5, h6, h7, h8, h9, h10, h11, h12, h13, h14,
    h15, h16, h17, h18, h19, h20, h21, h22, h23, h24, h25]

lemma extract_home_no_kw (s : String)
    (h : ∀ k ∈ engHomeKws, hasKw (lowerChars s) k = false) :
    extract_home s = none := by
  simp only [engHomeKws, List.forall_mem_cons, List.forall_mem_nil, and_true] at h
  obtain ⟨h1, h2, h3, h4, h5, h6, h7, h8, h9, h10, h11, h12, h13⟩ := h
  simp [extract_home, anyKw, h1, h2, h3, h4, h5, h6, h7, h8, h9, h10, h11, h12, h13]

lemma extract_allergies_no_kw (s : String)
    (h : ∀ k ∈ engAllergyKws, hasKw (lowerChars s) k = false) :
    extract_allergies s = none := by
  simp only [engAllergyKws, List.forall_mem_cons, List.forall_mem_nil, and_true] at h
  obtain ⟨h1, h2, h3, h4, h5, h6, h7, h8, h9, h10, h11, h12, h13, h14, h15, h16, h17, h18,
    h19, h20, h21, h22, h23, h24, h25, h26, h27, h28, h29, h30⟩ := h
  simp [extract_allergies, anyKw, h1, h2, h3, h4, h5, h6, h7, h8, h9, h10, h11, h12, h13,
    h14, h15, h16, h17, h18, h19, h20, h21, h22, h23, h24, h25, h26, h27, h28, h29, h30]

lemma extract_kids_no_kw (s : String)
    (h : ∀ k ∈ engKidsKws, hasKw (lowerChars s) k = false) :
    extract_kids s = none := by
  simp only [engKidsKws, List.forall_mem_cons, List.forall_mem_nil, and_true] at h
  obtain ⟨h1, h2, h3, h4, h5, h6, h7⟩ := h
  simp [extract_kids, anyKw, h1, h2, h3, h4, h5, h6, h7]

lemma parse_preferences_eq_nil (s : String)
    (h1 : extract_energy s = none) (h2 : extract_home s = none)
    (h3 : extract_allergies s = none) (h4 : extract_kids s = none) :
    parse_preferences s = [] := by
  simp [parse_preferences, h1, h2, h3, h4]

/-- C7: an utterance containing none of the recognized keywords yields empty
preference and weight deltas from both parsers; extraction is total and "no
new signal" is an ordinary value, not an error. -/
theorem extract_no_signal (s : String)
    (h : ∀ k ∈ noSignalKws, hasKw (lowerChars s) k = false) :
    parseChat s = [] ∧ parse_preferences s = [] ∧
    mergeChat [] [] (parseChat s) = ([], []) := by
  simp only [noSignalKws] at h
  obtain ⟨hApp, hEng⟩ := List.forall_mem_append.1 h
  obtain ⟨hEng1, hK⟩ := List.forall_mem_append.1 hEng
  obtain ⟨hEng2, hA⟩ := List.forall_mem_append.1 hEng1
  obtain ⟨hE, hH⟩ := List.forall_mem_append.1 hEng2
  have hpc := parseChat_no_kw s hApp
  have hpp := parse_preferences_eq_nil s (extract_energy_no_kw s hE)
    (extract_home_no_kw s hH) (extract_allergies_no_kw s hA) (extract_kids_no_kw s hK)
  refine ⟨hpc, hpp, ?_⟩
  rw [hpc]
  rfl

/-- Closed instance of C7 on a keyword-free utterance. -/
theorem extract_no_signal_witness :
    parseChat ("the weather is pleasant") = [] ∧
    parse_preferences ("the weather is pleasant") = [] ∧
    mergeChat [] [] (parseChat ("the weather is pleasant")) = ([], []) :=
  extract_no_signal ("the weather is pleasant") (by decide)

lemma dget_wfold_of_not_mem (t : String) :
    ∀ (L : List String) (w : List (String × ℚ)), t ∉ L →
      dget (L.foldl (fun w trait => dset w trait (max ((dget w trait).getD (3 / 5)) 1)) w) t
        = dget w t := by
  intro L
  induction L with
  | nil => intro w _; rfl
  | cons k L ih =>
    intro w ht
    simp only [List.foldl_cons]
    rw [ih _ (fun hc => ht (List.mem_cons_of_mem k hc)),
      dget_dset_other _ _ _ _ (fun hc => ht (by rw [hc]; exact List.mem_cons_self k L))]

lemma dget_wfold_of_mem (t : String) :
    ∀ (L : List String) (w : List (String × ℚ)), L.Nodup → t ∈ L →
      dget (L.foldl (fun w trait => dset w trait (max ((dget w trait).getD (3 / 5)) 1)) w) t
        = some (max ((dget w t).getD (3 / 5)) 1) := by
  intro L
  induction L with
  | nil => intro w _ ht; exact absurd ht (List.not_mem_nil t)
  | cons k L ih =>
    intro w hnd ht
    simp only [List.foldl_cons]
    by_cases hk : t = k
    · subst hk
      have htL : t ∉ L := (List.nodup_cons.1 hnd).1
      rw [dget_wfold_of_not_mem t L _ htL, dget_dset_self]
    · have htL : t ∈ L := (List.mem_cons.1 ht).resolve_left hk
      rw [ih _ (List.nodup_cons.1 hnd).2 htL, dget_dset_other _ _ _ _ hk]

lemma dget_dictUpdate_of_not_mem (t : String) :
    ∀ (u d : List (String × ℚ)), t ∉ u.map (fun p => p.1) →
      dget (dictUpdate d u) t = dget d t := by
  intro u
  induction u with
  | nil => intro d _; rfl
  | cons p u ih =>
    intro d ht
    simp only [List.map_cons, List.mem_cons] at ht
    push_neg at ht
    show dget (dictUpdate (dset d p.1 p.2) u) t = dget d t
    rw [ih _ ht.2, dget_dset_other _ _ _ _ ht.1]

lemma dget_dictUpdate_of_mem (t : String) :
    ∀ (u d : List (String × ℚ)), (u.map (fun p => p.1)).Nodup →
      t ∈ u.map (fun p => p.1) → dget (dictUpdate d u) t = dget u t := by
  intro u
  induction u with
  | nil => intro d _ ht; exact absurd ht (List.not_mem_nil t)
  | cons p u ih =>
    intro d hnd ht
    simp only [List.map_cons, List.nodup_cons] at hnd
    by_cases hk : t = p.1
    · have htu : t ∉ u.map (fun p => p.1) := hk ▸ hnd.1
      show dget (dictUpdate (dset d p.1 p.2) u) t = dget (p :: u) t
      rw [dget_dictUpdate_of_not_mem t u _ htu, hk, dget_dset_self]
      simp [dget, hk]
    · have htu : t ∈ u.map (fun p => p.1) := by
        simp only [List.map_cons, List.mem_cons] at ht
        exact ht.resolve_left hk
      show dget (dictUpdate (dset d p.1 p.2) u) t = dget (p :: u) t
      rw [ih _ hnd.2 htu]
      have hpk : p.1 ≠ t := fun hc => hk hc.symm
      simp [dget, hpk]

/-- C8: merging a chat extraction for a trait that already has a weight stores
max(old, new) with new = 1.0 — the weight never decreases — while the trait
level is overwritten by the most recent extraction. -/
theorem merge_weight_never_decreases
    (prefs_sidebar weights_sidebar inferred : List (String × ℚ))
    (t : String) (wOld : ℚ)
    (hnd : (inferred.map (fun p => p.1)).Nodup)
    (ht : t ∈ inferred.map (fun p => p.1))
    (hOld : dget weights_sidebar t = some wOld) :
    dget (mergeChat prefs_sidebar weights_sidebar inferred).2 t = some (max wOld 1) ∧
    wOld ≤ max wOld 1 ∧
    dget (mergeChat prefs_sidebar weights_sidebar inferred).1 t = dget inferred t := by
  refine ⟨?_, le_max_left _ _, ?_⟩
  · show dget ((inferred.map (fun p => p.1)).foldl
        (fun w trait => dset w trait (max ((dget w trait).getD (3 / 5)) 1))
        weights_sidebar) t = some (max wOld 1)
    rw [dget_wfold_of_mem t _ weights_sidebar hnd ht, hOld]
    rfl
  · exact dget_dictUpdate_of_mem t inferred prefs_sidebar hnd ht

/-- Closed instance of C8: a trait with sidebar weight 1/2, re-extracted from
chat, ends with weight max(1/2, 1) and the chat level 5. -/
theorem merge_weight_never_decreases_witness :
    dget (mergeChat [("Energy Level", 4)] [("Energy Level", 1/2)]
        [("Energy Level", 5)]).2 ("Energy Level") = some (max (1/2) 1) ∧
    (1/2 : ℚ) ≤ max (1/2) 1 ∧
    dget (mergeChat [("Energy Level", 4)] [("Energy Level", 1/2)]
        [("Energy Level", 5)]).1 ("Energy Level") = dget [("Energy Level", 5)] ("Energy Level") :=
  merge_weight_never_decreases [("Energy Level", 4)] [("Energy Level", 1/2)]
    [("Energy Level", 5)] ("Energy Level") (1/2)
    (by decide) (by decide) (by simp [dget])

/-- C9 (amended): a preference entry whose trait name is outside the fixed
`PREFERENCE_TRAITS` enumeration is silently ignored by the scorer — the output
is identical to scoring without it, and no error of any kind is signalled. -/
theorem score_ignores_unknown_trait (catalog : List BreedRow)
    (prefs weights : List (String × ℚ)) (k : String) (v : ℚ)
    (hk : k ∉ PREFERENCE_TRAITS.map (fun pc => pc.1)) :
    scoreBreeds catalog ((k, v) :: prefs) weights = scoreBreeds catalog prefs weights := by
  have hrow : ∀ row : BreedRow, rowEval ((k, v) :: prefs) weights row = rowEval prefs weights row := by
    intro row
    unfold rowEval
    rw [List.filterMap_congr ?_]
    intro pc hpc
    have hne : ¬ k = pc.1 := fun hc =>
      hk (by rw [hc]; exact List.mem_map_of_mem (fun pc => pc.1) hpc)
    unfold traitEval
    rw [show dget ((k, v) :: prefs) pc.1 = dget prefs pc.1 by simp [dget, hne]]
  simp [scoreBreeds, scoredRows, hrow]

/-- Closed instance showing C9 as stated is false: the unrecognized trait
"Watchdog/Protective Nature" (which the chat parser itself can produce) is
passed to the scorer inside the profile, and the scorer returns a perfectly
normal 100-point ranking identical to the one without that trait — it is
silently ignored, no invalid-argument error is signalled. -/
theorem score_unknown_trait_silently_ignored_cex :
    scoreBreeds [{ name := "Beagle", traits := [("Energy Level", 3)] }]
        [("Watchdog/Protective Nature", 5), ("Energy Level", 3)] [("Energy Level", 1)]
      = scoreBreeds [{ name := "Beagle", traits := [("Energy Level", 3)] }]
          [("Energy Level", 3)] [("Energy Level", 1)] ∧
    (scoreBreeds [{ name := "Beagle", traits := [("Energy Level", 3)] }]
        [("Watchdog/Protective Nature", 5), ("Energy Level", 3)]
        [("Energy Level", 1)]).map (fun r => r.score) = [100] := by
  constructor <;>
    norm_num +decide [scoreBreeds, scoredRows, rowEval, PREFERENCE_TRAITS,
      List.filterMap_cons, traitEval, dget, totalWeight, diffVal, matchVal, scoreGE]

/-- Closed instance of the amended C9 via the general theorem. -/
theorem score_ignores_unknown_trait_witness :
    scoreBreeds [{ name := "Beagle", traits := [("Energy Level", 3)] }]
        [("Watchdog/Protective Nature", 5), ("Energy Level", 3)] [("Energy Level", 1)]
      = scoreBreeds [{ name := "Beagle", traits := [("Energy Level", 3)] }]
          [("Energy Level", 3)] [("Energy Level", 1)] :=
  score_ignores_unknown_trait [{ name := "Beagle", traits := [("Energy Level", 3)] }]
    [("Energy Level", 3)] [("Energy Level", 1)] ("Watchdog/Protective Nature") 5 (by decide)

/-- Removal of every entry with a given key, used to compare scoring with and
without a preference entry. -/
def removeKey (m : List (String × ℚ)) (k : String) : List (String × ℚ) :=
  m.filter (fun p => p.1 != k)

lemma dget_removeKey_self (m : List (String × ℚ)) (k : String) :
    dget (removeKey m k) k = none := by
  induction m with
  | nil => rfl
  | cons p rest ih =>
    by_cases h : p.1 = k
    · simpa [removeKey, List.filter_cons, h] using ih
    · simpa [removeKey, List.filter_cons, h, dget] using ih

lemma dget_removeKey_other (m : List (String × ℚ)) (k q : String) (hq : q ≠ k) :
    dget (removeKey m k) q = dget m q := by
  induction m with
  | nil => rfl
  | cons p rest ih =>
    simp only [removeKey] at ih
    by_cases h : p.1 = k
    · have hpq : ¬ p.1 = q := fun hc => hq (hc ▸ h)
      have hkq : ¬ k = q := fun hc => hq hc.symm
      simp [removeKey, List.filter_cons, h, dget, hpq, hkq, hq, ih]
    · by_cases h2 : p.1 = q
      · simp [removeKey, List.filter_cons, h, dget, h2, hq]
      · simp [removeKey, List.filter_cons, h, dget, h2, hq, ih]

lemma evalSum_removeKey (prefs weights : List (String × ℚ)) (row : BreedRow) (t : String)
    (hw : dget weights t = none) :
    ∀ L : List (String × String),
      ((L.filterMap (traitEval (removeKey prefs t) weights row)).map (fun x => x.1)).sum
        = ((L.filterMap (traitEval prefs weights row)).map (fun x => x.1)).sum := by
  intro L
  induction L with
  | nil => rfl
  | cons pc L ih =>
    by_cases hpc : pc.1 = t
    · have h1 : traitEval (removeKey prefs t) weights row pc = none := by
        unfold traitEval
        rw [hpc, dget_removeKey_self]
      cases h2 : dget prefs pc.1 with
      | none =>
        have h3 : traitEval prefs weights row pc = none := by
          unfold traitEval
          rw [h2]
        simp [List.filterMap_cons, h1, h3, ih]
      | some d =>
        have h3 : traitEval prefs weights row pc
            = some (matchVal (diffVal d (dget row.traits pc.2)) * (dget weights pc.1).getD 0,
                (pc.1, { desired := d, actual := dget row.traits pc.2,
                         matchv := matchVal (diffVal d (dget row.traits pc.2)),
                         weight := (dget weights pc.1).getD 0 })) := by
          unfold traitEval
          rw [h2]
        have h4 : (dget weights pc.1).getD 0 = 0 := by rw [hpc, hw]; rfl
        simp [List.filterMap_cons, h1, h3, h4, ih]
    · have h1 : traitEval (removeKey prefs t) weights row pc = traitEval prefs weights row pc := by
        unfold traitEval
        rw [dget_removeKey_other prefs t pc.1 hpc]
      cases h2 : traitEval prefs weights row pc <;>
        simp [List.filterMap_cons, h1, h2, ih]

lemma detail_mem_of_pref (prefs weights : List (String × ℚ)) (row : BreedRow)
    (t c : String) (d : ℚ)
    (htc : (t, c) ∈ PREFERENCE_TRAITS) (hd : dget prefs t = some d) :
    (t, { desired := d, actual := dget row.traits c,
          matchv := matchVal (diffVal d (dget row.traits c)),
          weight := (dget weights t).getD 0 }) ∈ (rowEval prefs weights row).2 := by
  refine List.mem_map.2
    ⟨(matchVal (diffVal d (dget row.traits c)) * (dget weights t).getD 0,
      (t, { desired := d, actual := dget row.traits c,
            matchv := matchVal (diffVal d (dget row.traits c)),
            weight := (dget weights t).getD 0 })), ?_, rfl⟩
  refine List.mem_filterMap.2 ⟨(t, c), htc, ?_⟩
  unfold traitEval
  rw [show dget prefs (t, c).1 = some d from hd]

/-- C10: a trait present in the preference map but absent from the weight map
is scored with weight 0.0 — it changes no breed aggregate score (scoring with
it equals scoring with the entry removed) — while its per-trait detail entry
is still produced, with weight 0, and no error is raised. -/
theorem missing_weight_defaults_zero (catalog : List BreedRow)
    (prefs weights : List (String × ℚ)) (t c : String) (d : ℚ)
    (htc : (t, c) ∈ PREFERENCE_TRAITS) (hd : dget prefs t = some d)
    (hw : dget weights t = none) :
    (scoredRows catalog (removeKey prefs t) weights).map (fun r => r.score)
      = (scoredRows catalog prefs weights).map (fun r => r.score) ∧
    ∀ row ∈ catalog,
      (t, { desired := d, actual := dget row.traits c,
            matchv := matchVal (diffVal d (dget row.traits c)), weight := 0 })
        ∈ (rowEval prefs weights row).2 := by
  constructor
  · unfold scoredRows
    rw [List.map_map, List.map_map]
    apply List.map_congr_left
    intro row _
    simp only [Function.comp]
    rw [show (rowEval (removeKey prefs t) weights row).1 = (rowEval prefs weights row).1 from
      evalSum_removeKey prefs weights row t hw PREFERENCE_TRAITS]
  · intro row _
    have h0 : (dget weights t).getD 0 = 0 := by rw [hw]; rfl
    have hm := detail_mem_of_pref prefs weights row t c d htc hd
    rw [h0] at hm
    exact hm

/-- Closed instance of C10: Energy Level preferred but carrying no weight. -/
theorem missing_weight_defaults_zero_witness :
    (scoredRows [{ name := "Beagle", traits := [("Energy Level", 4)] }]
        (removeKey [("Energy Level", 3)] ("Energy Level")) []).map (fun r => r.score)
      = (scoredRows [{ name := "Beagle", traits := [("Energy Level", 4)] }]
          [("Energy Level", 3)] []).map (fun r => r.score) ∧
    ∀ row ∈ ([{ name := "Beagle", traits := [("Energy Level", 4)] }] : List BreedRow),
      ("Energy Level",
        { desired := 3, actual := dget row.traits ("Energy Level"),
          matchv := matchVal (diffVal 3 (dget row.traits ("Energy Level"))), weight := 0 })
        ∈ (rowEval [("Energy Level", 3)] [] row).2 :=
  missing_weight_defaults_zero [{ name := "Beagle", traits := [("Energy Level", 4)] }]
    [("Energy Level", 3)] [] ("Energy Level") ("Energy Level") 3
    (by decide) (by simp [dget]) (by simp [dget])
